import Mathlib

/-!
Verification of the request-ledger core of the Beschaffungs-Bot.

The tabular store (a Google Sheet) is modelled as `List (List String)`:
an ordered sequence of rows, each row an ordered sequence of cells, with
the header row at physical position 1 (list index 0).  Store failures
(connection failure, read/write round-trips raising) are modelled by
explicit boolean flags passed to each operation, mirroring the
`try/except` structure of the source: a `false` flag makes the operation
take exactly the path the corresponding `except` (or `if not worksheet`)
branch takes in the source.  Timestamps for the weekly aggregation are
modelled as microseconds since an epoch that falls on a Monday 00:00:00,
and the timestamp parser (`datetime.strptime`, an external library) is a
parameter `parse : String → Option Nat`.
-/

namespace Bot

/-- Python's `str.strip()` whitespace set (the six ASCII whitespace
characters). -/
def isPyWS (c : Char) : Bool :=
  c = ' ' || c = '\t' || c = '\n' || c = '\x0d' || c = '\x0b' || c = '\x0c'

/-- Python `s.strip()`: remove leading and trailing whitespace. -/
def pyStrip (s : String) : String :=
  String.mk (((s.data.dropWhile isPyWS).reverse.dropWhile isPyWS).reverse)

/-- Python `s.lower()` (ASCII case mapping). -/
def pyLower (s : String) : String := String.mk (s.data.map Char.toLower)

/-- Python `s.upper()` (ASCII case mapping). -/
def pyUpper (s : String) : String := String.mk (s.data.map Char.toUpper)

/-- Python `f"{n:03d}"`: decimal representation of `n` left-padded with
zeros to a width of at least 3. -/
def pad3 (n : Nat) : String :=
  String.mk (List.replicate (3 - (toString n).length) '0') ++ toString n

/-- The fields assembled by the conversation before an append
(`data` dict built in `save_order`). -/
structure OrderData where
  timestamp : String
  mitarbeiter : String
  chat_id : Int
  artikel : String
  menge : String
  dringlichkeit : String
  kostenstelle : String
  foto_id : String
deriving Repr, DecidableEq

/-- Model of `get_next_order_number` from the source: on connection failure
(`get_google_sheet()` returned `None`) the literal `"#001"`; on a failed
row-count read (exception) the literal `"#???"`; otherwise `"#"` followed
by the total row count (header included) zero-padded to 3 digits. -/
def get_next_order_number (conn readOk : Bool) (all_values : List (List String)) : String :=
  if conn = false then "#001"
  else if readOk = false then "#???"
  else "#" ++ pad3 all_values.length

/-- The row written by `save_to_sheet`: order number, timestamp, name,
chat id as string, article, quantity, urgency, cost center, and the two
fulfillment columns initially empty. -/
def orderRow (order_number : String) (data : OrderData) : List String :=
  [order_number, data.timestamp, data.mitarbeiter, toString data.chat_id,
   data.artikel, data.menge, data.dringlichkeit, data.kostenstelle, "", ""]

/-- Model of `save_to_sheet` from the source.  `outerConn` is its own
`get_google_sheet()` call, `innerConn`/`readOk` are the connection and
row-count read inside `get_next_order_number`, `appendOk` is the
`append_row` round-trip.  Returns the `(success, order_number)` pair of
the source plus the resulting sheet state. -/
def save_to_sheet (outerConn innerConn readOk appendOk : Bool)
    (sheet : List (List String)) (data : OrderData) : Bool × String × List (List String) :=
  if outerConn = false then (false, "", sheet)
  else
    let order_number := get_next_order_number innerConn readOk sheet
    if appendOk = false then (false, "", sheet)
    else (true, order_number, sheet ++ [orderRow order_number data])

/-- A sequence of successful, non-concurrent appends: each append runs
`save_to_sheet` with every store round-trip succeeding, on the sheet
state left by the previous append.  Returns the assigned order numbers
in order, and the final sheet. -/
def runAppends : List OrderData → List (List String) → List String × List (List String)
  | [], sheet => ([], sheet)
  | d :: ds, sheet =>
    let r := save_to_sheet true true true true sheet d
    let rest := runAppends ds r.2.2
    (r.2.1 :: rest.1, rest.2)

/-- The record built for each pending row by
`get_pending_orders_for_user`: the physical row position plus the cells
the source copies out of the row. -/
structure PendingOrder where
  row : Nat
  order_number : String
  timestamp : String
  artikel : String
  menge : String
  dringlichkeit : String
  kostenstelle : String
deriving Repr, DecidableEq

/-- The dict appended for a matching row in
`get_pending_orders_for_user`. -/
def mkPendingOrder (i : Nat) (row : List String) : PendingOrder :=
  ⟨i, row.getD 0 "", row.getD 1 "", row.getD 4 "", row.getD 5 "",
    row.getD 6 "", row.getD 7 ""⟩

/-- The source's per-row test in `get_pending_orders_for_user`:
`len(row) >= 9`, `str(chat_id) == row[3]` and `row[8].strip() == ""`. -/
def pendingRowTest (chat : String) (row : List String) : Bool :=
  decide (9 ≤ row.length) && (chat == row.getD 3 "") && (pyStrip (row.getD 8 "") == "")

/-- The scan loop of `get_pending_orders_for_user`: rows are visited in
ledger order and numbered from `i` (the source starts at 2, just past
the header). -/
def pendingAux (chat : String) : Nat → List (List String) → List PendingOrder
  | _, [] => []
  | i, row :: rest =>
    if pendingRowTest chat row then mkPendingOrder i row :: pendingAux chat (i + 1) rest
    else pendingAux chat (i + 1) rest

/-- Model of `get_pending_orders_for_user` from the source.  `conn` models its
`get_google_sheet()` call, `readOk` the `get_all_values()` round-trip
(any exception in the body is caught and yields `[]`). -/
def get_pending_orders_for_user (conn readOk : Bool) (chat_id : Int)
    (all_values : List (List String)) : List PendingOrder :=
  if conn = false then []
  else if readOk = false then []
  else if all_values.length ≤ 1 then []
  else pendingAux (toString chat_id) 2 (all_values.drop 1)

/-- The operation `listPending` as the spec words it, with the one amendment the code
forces: a data row is selected when its `requester_identity` cell equals
the identity and its `fulfillment_status` cell is empty after trimming
whitespace; rows keep ledger order and are annotated with their physical
position (header = position 1, data rows from position 2). -/
def listPendingSpec (chat_id : Int) (all_values : List (List String)) : List PendingOrder :=
  (((all_values.drop 1).enumFrom 2).filter
      (fun p => (toString chat_id == p.2.getD 3 "") && (pyStrip (p.2.getD 8 "") == ""))).map
    (fun p => mkPendingOrder p.1 p.2)

/-- gspread's `update_cell(row, col, value)` on the in-memory table:
`row` and `col` are 1-indexed. -/
def update_cell (sheet : List (List String)) (row col : Nat) (value : String) :
    List (List String) :=
  sheet.set (row - 1) ((sheet.getD (row - 1) []).set (col - 1) value)

/-- Model of `cancel_order` from the source: writes `"STORNIERT"` to column 9 and
the current time to column 10 of the given row.  `conn` models
`get_google_sheet()`, `upd1`/`upd2` the two `update_cell` round-trips
(an exception leaves the earlier writes in place and returns `False`). -/
def cancel_order (conn upd1 upd2 : Bool) (nowStr : String) (row_number : Nat)
    (sheet : List (List String)) : Bool × List (List String) :=
  if conn = false then (false, sheet)
  else if upd1 = false then (false, sheet)
  else
    let s1 := update_cell sheet row_number 9 "STORNIERT"
    if upd2 = false then (false, s1)
    else (true, update_cell s1 row_number 10 nowStr)

/-- Python's substring test `needle in hay` on strings, as a scan over
the character list of the haystack. -/
def infixOf : List Char → List Char → Bool
  | ns, [] => ns.isEmpty
  | ns, c :: cs => ns.isPrefixOf (c :: cs) || infixOf ns cs

/-- Python `needle in hay` for strings. -/
def strIncluded (needle hay : String) : Bool := infixOf needle.data hay.data

/-- The record built for each hit by `search_orders`. -/
structure SearchResult where
  row : Nat
  order_number : String
  timestamp : String
  mitarbeiter : String
  artikel : String
  menge : String
  dringlichkeit : String
  kostenstelle : String
  bestellt : String
deriving Repr, DecidableEq

/-- The dict appended for a matching row in `search_orders`
(`bestellt` falls back to `""` when the row has no ninth cell). -/
def mkSearchResult (i : Nat) (row : List String) : SearchResult :=
  ⟨i, row.getD 0 "", row.getD 1 "", row.getD 2 "", row.getD 4 "", row.getD 5 "",
    row.getD 6 "", row.getD 7 "", row.getD 8 ""⟩

/-- The source's match test in `search_orders`: the lowered search term
occurs in the lowered article (cell 5), employee name (cell 3) or cost
center (cell 8) of the row. -/
def rowMatches (search_lower : String) (row : List String) : Bool :=
  strIncluded search_lower (pyLower (row.getD 4 "")) ||
  strIncluded search_lower (pyLower (row.getD 2 "")) ||
  strIncluded search_lower (pyLower (row.getD 7 ""))

/-- The scan loop of `search_orders` (before the `[:10]` truncation),
guarded by the source's `len(row) >= 8` check. -/
def searchAux (search_lower : String) : Nat → List (List String) → List SearchResult
  | _, [] => []
  | i, row :: rest =>
    if decide (8 ≤ row.length) && rowMatches search_lower row then
      mkSearchResult i row :: searchAux search_lower (i + 1) rest
    else searchAux search_lower (i + 1) rest

/-- Model of `search_orders` from the source, including the `results[:10]`
truncation.  `conn`/`readOk` model the store round-trips as above. -/
def search_orders (conn readOk : Bool) (search_term : String)
    (all_values : List (List String)) : List SearchResult :=
  if conn = false then []
  else if readOk = false then []
  else if all_values.length ≤ 1 then []
  else (searchAux (pyLower search_term) 2 (all_values.drop 1)).take 10

/-- The operation `search` as the spec words it: the first at most 10 data rows, in
ledger order, whose article, requester name or cost center contains the
term case-insensitively. -/
def searchSpec (search_term : String) (all_values : List (List String)) :
    List SearchResult :=
  ((((all_values.drop 1).enumFrom 2).filter
      (fun p => rowMatches (pyLower search_term) p.2)).map
    (fun p => mkSearchResult p.1 p.2)).take 10

/-- The three-way status classification of `get_weekly_summary`
(`row[8].strip().upper()` compared against `""` and `"STORNIERT"`). -/
inductive Category
  | pending
  | cancelled
  | ordered
deriving Repr, DecidableEq

/-- Status classification `row[8].strip().upper()`; empty → pending, `"STORNIERT"` →
cancelled, anything else → ordered. -/
def classify (raw : String) : Category :=
  let status := pyUpper (pyStrip raw)
  if status = "" then .pending
  else if status = "STORNIERT" then .cancelled
  else .ordered

def microsPerSec : Nat := 1000000

def microsPerDay : Nat := 86400 * microsPerSec

/-- The `week_start` computation of `get_weekly_summary`, on timestamps measured in
microseconds since an epoch falling on a Monday 00:00:00.000000:
`datetime.now().replace(hour=0, minute=0, second=0)` zeroes the hours,
minutes and seconds but keeps the microseconds, and then
`timedelta(days=today.weekday())` days are subtracted. -/
def week_start (now : Nat) : Nat :=
  now - now % microsPerDay + now % microsPerSec - (now / microsPerDay % 7) * microsPerDay

/-- The statistics dict built by `get_weekly_summary`. -/
structure WeeklySummary where
  total : Nat
  pending : Nat
  ordered : Nat
  cancelled : Nat
  by_kostenstelle : List (String × Nat)
deriving Repr, DecidableEq

/-- The update `by_kostenstelle[ks] = by_kostenstelle.get(ks, 0) + 1` on a dict in
insertion order: increment in place when present, append `(k, 1)`
otherwise. -/
def bump : List (String × Nat) → String → List (String × Nat)
  | [], k => [(k, 1)]
  | (k', v) :: rest, k =>
    if k' = k then (k', v + 1) :: rest else (k', v) :: bump rest k

/-- A row's timestamp parses and lies at or after the week start
(`order_date >= week_start` in the source — note: no upper bound). -/
def inWindow (parse : String → Option Nat) (ws : Nat) (row : List String) : Bool :=
  match parse (row.getD 1 "") with
  | none => false
  | some d => decide (ws ≤ d)

/-- One iteration of the row loop of `get_weekly_summary`: a row
shorter than 9 cells is skipped, a `strptime` failure silently skips the
row (`except: pass`), a row at or after the week start is counted,
classified by status, and tallied per cost center. -/
def rowTick (parse : String → Option Nat) (ws : Nat) (row : List String)
    (acc : WeeklySummary) : WeeklySummary :=
  if 9 ≤ row.length then
    match parse (row.getD 1 "") with
    | none => acc
    | some d =>
      if ws ≤ d then
        let acc1 := { acc with total := acc.total + 1 }
        let acc2 :=
          match classify (row.getD 8 "") with
          | .pending => { acc1 with pending := acc1.pending + 1 }
          | .cancelled => { acc1 with cancelled := acc1.cancelled + 1 }
          | .ordered => { acc1 with ordered := acc1.ordered + 1 }
        { acc2 with by_kostenstelle := bump acc2.by_kostenstelle (row.getD 7 "") }
      else acc
  else acc

/-- The row loop of `get_weekly_summary`: `rowTick` applied to each data
row in ledger order. -/
def weeklyLoop (parse : String → Option Nat) (ws : Nat) :
    List (List String) → WeeklySummary → WeeklySummary
  | [], acc => acc
  | row :: rest, acc => weeklyLoop parse ws rest (rowTick parse ws row acc)

/-- Model of `get_weekly_summary` from the source.  The empty dict returned on a
connection failure or an exception is modelled as `none`; the
keys-but-zeros dict returned for a headerless/header-only sheet and the
populated dict are `some`. -/
def get_weekly_summary (conn readOk : Bool) (parse : String → Option Nat) (now : Nat)
    (all_values : List (List String)) : Option WeeklySummary :=
  if conn = false then none
  else if readOk = false then none
  else if all_values.length ≤ 1 then some ⟨0, 0, 0, 0, []⟩
  else some (weeklyLoop parse (week_start now) (all_values.drop 1) ⟨0, 0, 0, 0, []⟩)

/-- The operation `weeklyAggregate` as the amended spec words it: a data row is
counted exactly when its timestamp parses and lies at or after
`week_start now`; counted rows are classified by `classify` and tallied
per cost center. -/
def weeklySpec (parse : String → Option Nat) (now : Nat)
    (all_values : List (List String)) : WeeklySummary :=
  let ws := week_start now
  let rows := all_values.drop 1
  { total := rows.countP (fun row => inWindow parse ws row)
    pending := rows.countP
      (fun row => inWindow parse ws row && decide (classify (row.getD 8 "") = .pending))
    ordered := rows.countP
      (fun row => inWindow parse ws row && decide (classify (row.getD 8 "") = .ordered))
    cancelled := rows.countP
      (fun row => inWindow parse ws row && decide (classify (row.getD 8 "") = .cancelled))
    by_kostenstelle := rows.foldl
      (fun m row => if inWindow parse ws row then bump m (row.getD 7 "") else m) [] }

/-- The `ConversationHandler.END` sentinel of the transport framework. -/
def convEnd : Int := -1

/-- First state of the order conversation (`ARTIKEL` in `range(7)`). -/
def ARTIKEL : Int := 0

/-- The per-identity scratch state (`context.user_data`): the collected
order fields plus the pending list cached by the cancellation flow. -/
structure UserData where
  artikel : Option String := none
  menge : Option String := none
  dringlichkeit : Option String := none
  kostenstelle : Option String := none
  foto_id : Option String := none
  pending_orders : List PendingOrder := []
deriving Repr, DecidableEq

/-- Model of `context.user_data.clear()`. -/
def UserData.clear (_ : UserData) : UserData := {}

/-- Model of `save_order` from the source: builds the data dict from the scratch
state, calls `save_to_sheet`, replies (success or failure), clears the
scratch state and ends the conversation. -/
def save_order (outerConn innerConn readOk appendOk : Bool) (nowStr name : String)
    (chat_id : Int) (ud : UserData) (sheet : List (List String)) :
    Int × UserData × List (List String) :=
  let data : OrderData :=
    { timestamp := nowStr, mitarbeiter := name, chat_id := chat_id,
      artikel := ud.artikel.getD "", menge := ud.menge.getD "",
      dringlichkeit := ud.dringlichkeit.getD "", kostenstelle := ud.kostenstelle.getD "",
      foto_id := ud.foto_id.getD "" }
  let r := save_to_sheet outerConn innerConn readOk appendOk sheet data
  (convEnd, UserData.clear ud, r.2.2)

/-- The three callback signals accepted in the `BESTAETIGUNG` state. -/
inductive ConfirmData
  | confirm_yes
  | confirm_restart
  | confirm_cancel
deriving Repr, DecidableEq

/-- Model of `confirmation_callback` from the source: submit delegates to
`save_order`, restart clears the scratch state and re-enters `ARTIKEL`,
abort clears the scratch state and ends. -/
def confirmation_callback (sig : ConfirmData) (outerConn innerConn readOk appendOk : Bool)
    (nowStr name : String) (chat_id : Int) (ud : UserData)
    (sheet : List (List String)) : Int × UserData × List (List String) :=
  match sig with
  | .confirm_yes => save_order outerConn innerConn readOk appendOk nowStr name chat_id ud sheet
  | .confirm_restart => (ARTIKEL, UserData.clear ud, sheet)
  | .confirm_cancel => (convEnd, UserData.clear ud, sheet)

/-- The callback signals accepted in the `STORNO_AUSWAHL` state:
`"cancel_abort"` or `"cancel_<row>"`. -/
inductive StornoData
  | cancel_abort
  | cancel_select (row_number : Nat)
deriving Repr, DecidableEq

/-- Model of `stornieren_callback` from the source.  On abort it only edits the
message and returns `END` — the source reaches `context.user_data.clear()`
only on the selection path, so the scratch state survives an abort.  On a
selection it looks the row up in the cached pending list, calls
`cancel_order` when found (short-circuit: not called when absent), then
clears the scratch state and ends. -/
def stornieren_callback (sig : StornoData) (conn upd1 upd2 : Bool) (nowStr : String)
    (ud : UserData) (sheet : List (List String)) : Int × UserData × List (List String) :=
  match sig with
  | .cancel_abort => (convEnd, ud, sheet)
  | .cancel_select row_number =>
    match ud.pending_orders.find? (fun o => o.row == row_number) with
    | some _ =>
      let r := cancel_order conn upd1 upd2 nowStr row_number sheet
      (convEnd, UserData.clear ud, r.2)
    | none => (convEnd, UserData.clear ud, sheet)

/-- Well-formedness of a raw table: every row (header included) has at
least the 9 cells up to the `fulfillment_status` column — true of every
table read out of the real 10-column sheet, whose reads are padded to
the grid width. -/
def wfRows (all_values : List (List String)) : Bool :=
  all_values.all (fun row => decide (9 ≤ row.length))

/-- Some returned pending entry is annotated with row position `r`. -/
def hasRowAt (r : Nat) (l : List PendingOrder) : Bool :=
  l.any (fun p => p.row == r)

/-- No returned pending entry is annotated with row position `r`. -/
def noRowAt (r : Nat) (l : List PendingOrder) : Bool :=
  l.all (fun p => p.row != r)

/-- The header row of the ledger. -/
def hdrRow : List String :=
  ["BestellNr", "Timestamp", "Mitarbeiter", "ChatId", "Artikel", "Menge",
   "Dringlichkeit", "Kostenstelle", "Bestellt?", "Bestellt am"]

/-- A data row owned by identity 7 whose fulfillment status is a single
space: non-empty as a string, but blank after trimming. -/
def exRowSpace : List String :=
  ["#001", "2026-01-05 10:00:00", "Max Muster", "7", "Toner", "2",
   "Normal", "Lager", " ", ""]

/-- Ledger with the header and the whitespace-status row. -/
def exSheetSpace : List (List String) := [hdrRow, exRowSpace]

/-- A pending data row owned by identity 7. -/
def exRowPending : List String :=
  ["#001", "2026-01-05 10:00:00", "Max Muster", "7", "Toner", "2",
   "Normal", "Lager", "", ""]

/-- Ledger with the header and one pending row. -/
def exSheetPending : List (List String) := [hdrRow, exRowPending]

/-- A parse function standing in for `datetime.strptime` on a sheet
whose only data-row timestamp denotes Thursday 00:00:00 of the current
week (day 3 after the Monday epoch). -/
def exParse : String → Option Nat :=
  fun s => if s = "2026-01-08 00:00:00" then some (3 * microsPerDay) else none

/-- A `now` on Wednesday 12:00:00.000000 of the epoch week: the Thursday
timestamp above lies after it. -/
def exNow : Nat := 2 * microsPerDay + 12 * 3600 * microsPerSec

/-- Ledger whose only data row carries the Thursday timestamp. -/
def exRowThursday : List String :=
  ["#001", "2026-01-08 00:00:00", "Max Muster", "7", "Toner", "2",
   "Normal", "Lager", "", ""]

/-- Ledger for the weekly-window counterexample. -/
def exSheetThursday : List (List String) := [hdrRow, exRowThursday]

/-- A cached pending entry as stored by `stornieren_start`. -/
def exPendingEntry : PendingOrder :=
  ⟨2, "#001", "2026-01-05 10:00:00", "Toner", "2", "Normal", "Lager"⟩

/-- Scratch state of an identity that has just been shown the
cancellation keyboard. -/
def exUserData : UserData := { pending_orders := [exPendingEntry] }

theorem save_to_sheet_ok (sheet : List (List String)) (d : OrderData) :
    save_to_sheet true true true true sheet d =
      (true, "#" ++ pad3 sheet.length,
        sheet ++ [orderRow ("#" ++ pad3 sheet.length) d]) := by
  simp [save_to_sheet, get_next_order_number]

theorem runAppends_cons (d : OrderData) (ds : List OrderData) (sheet : List (List String)) :
    runAppends (d :: ds) sheet =
      (("#" ++ pad3 sheet.length) ::
          (runAppends ds (sheet ++ [orderRow ("#" ++ pad3 sheet.length) d])).1,
        (runAppends ds (sheet ++ [orderRow ("#" ++ pad3 sheet.length) d])).2) := by
  simp [runAppends, save_to_sheet_ok]

theorem runAppends_numbers (datas : List OrderData) :
    ∀ sheet : List (List String),
      (runAppends datas sheet).1 =
        (List.range datas.length).map (fun k => "#" ++ pad3 (sheet.length + k)) := by
  induction datas with
  | nil => intro sheet; simp [runAppends]
  | cons d ds ih =>
    intro sheet
    rw [runAppends_cons]
    show ("#" ++ pad3 sheet.length) ::
        (runAppends ds (sheet ++ [orderRow ("#" ++ pad3 sheet.length) d])).1 = _
    rw [List.length_cons, List.range_succ_eq_map, List.map_cons, List.map_map, ih,
      Nat.add_zero]
    congr 1
    apply List.map_congr_left
    intro k _
    simp only [Function.comp_apply, List.length_append, List.length_cons,
      List.length_nil]
    congr 2
    omega

theorem getD_set_self {α : Type} (a d : α) :
    ∀ (l : List α) (i : Nat), i < l.length → (l.set i a).getD i d = a := by
  intro l
  induction l with
  | nil => intro i h; simp at h
  | cons x xs ih =>
    intro i h
    cases i with
    | zero => rfl
    | succ j => exact ih j (by simpa using h)

theorem getD_set_ne {α : Type} (a d : α) :
    ∀ (l : List α) (i j : Nat), i ≠ j → (l.set i a).getD j d = l.getD j d := by
  intro l
  induction l with
  | nil => intro i j _; simp
  | cons x xs ih =>
    intro i j hne
    cases i with
    | zero =>
      cases j with
      | zero => exact absurd rfl hne
      | succ j' => rfl
    | succ i' =>
      cases j with
      | zero => rfl
      | succ j' => exact ih i' j' (fun h => hne (by rw [h]))

theorem getD_drop {α : Type} (d : α) :
    ∀ (l : List α) (n j : Nat), (l.drop n).getD j d = l.getD (n + j) d := by
  intro l
  induction l with
  | nil => intro n j; simp
  | cons x xs ih =>
    intro n j
    cases n with
    | zero => simp
    | succ m =>
      show (xs.drop m).getD j d = (x :: xs).getD (m + 1 + j) d
      rw [ih m j]
      have : m + 1 + j = (m + j) + 1 := by omega
      rw [this]
      rfl

theorem wfRows_mem {l : List (List String)} (h : wfRows l = true) :
    ∀ row ∈ l, 9 ≤ row.length := by
  intro row hrow
  have := (List.all_eq_true.mp h) row hrow
  simpa using this

theorem pendingAux_eq_spec (chat : String) :
    ∀ (rows : List (List String)) (i : Nat), (∀ row ∈ rows, 9 ≤ row.length) →
      pendingAux chat i rows =
        ((rows.enumFrom i).filter
            (fun p => (chat == p.2.getD 3 "") && (pyStrip (p.2.getD 8 "") == ""))).map
          (fun p => mkPendingOrder p.1 p.2) := by
  intro rows
  induction rows with
  | nil => intro i _; rfl
  | cons row rest ih =>
    intro i h
    have h9 : 9 ≤ row.length := h row (by simp)
    have hrest : ∀ r ∈ rest, 9 ≤ r.length := fun r hr => h r (by simp [hr])
    have htest : pendingRowTest chat row =
        ((chat == row.getD 3 "") && (pyStrip (row.getD 8 "") == "")) := by
      simp [pendingRowTest, h9]
    show (if pendingRowTest chat row then
        mkPendingOrder i row :: pendingAux chat (i + 1) rest
      else pendingAux chat (i + 1) rest) = _
    rw [htest, List.enumFrom, List.filter_cons]
    cases hc : ((chat == row.getD 3 "") && (pyStrip (row.getD 8 "") == "")) with
    | true => simp [ih (i + 1) hrest]
    | false => simp [ih (i + 1) hrest]

theorem mem_pendingAux (chat : String) :
    ∀ (rows : List (List String)) (i : Nat) (p : PendingOrder),
      p ∈ pendingAux chat i rows →
      ∃ j, j < rows.length ∧ p.row = i + j ∧ 9 ≤ (rows.getD j []).length ∧
        (rows.getD j []).getD 3 "" = chat ∧ pyStrip ((rows.getD j []).getD 8 "") = "" := by
  intro rows
  induction rows with
  | nil => intro i p hp; simp [pendingAux] at hp
  | cons row rest ih =>
    intro i p hp
    show ∃ j, _
    rw [pendingAux] at hp
    by_cases hc : pendingRowTest chat row = true
    · rw [if_pos hc] at hp
      have hc' := hc
      simp only [pendingRowTest, Bool.and_eq_true, decide_eq_true_eq, beq_iff_eq] at hc'
      rcases List.mem_cons.mp hp with h1 | h2
      · refine ⟨0, by simp, ?_, ?_, ?_, ?_⟩
        · rw [h1]; rfl
        · simpa using hc'.1.1
        · simpa using hc'.1.2.symm
        · simpa using hc'.2
      · obtain ⟨j, hj, hrow, hl, h3, h8⟩ := ih (i + 1) p h2
        exact ⟨j + 1, by simpa using hj, by omega, hl, h3, h8⟩
    · rw [if_neg hc] at hp
      obtain ⟨j, hj, hrow, hl, h3, h8⟩ := ih (i + 1) p hp
      exact ⟨j + 1, by simpa using hj, by omega, hl, h3, h8⟩

/-- C2 counterexample: on the ledger whose single data row (position 2,
identity 7) has the single space `" "` as its `fulfillment_status`, the
source returns that row from `listPending(7)` even though its status is
a non-empty string — the source compares `row[8].strip()` with `""`, not
`row[8]` itself.  This refutes the claim that `listPending` returns only
rows whose `fulfillment_status` is empty and never returns a request
with non-empty status. -/
theorem C2_counterexample :
    get_pending_orders_for_user true true 7 exSheetSpace = [mkPendingOrder 2 exRowSpace] ∧
      exRowSpace.getD 8 "" ≠ "" := by decide

/-- C2 (amended): for every at-least-9-cell-per-row ledger and every
identity, `listPending(identity)` returns exactly the data rows whose
`requester_identity` equals the identity and whose `fulfillment_status`
is empty **after trimming whitespace**, in ledger order, each annotated
with its physical row position (header = 1, data from 2); consequently
it never returns a row whose trimmed status is non-empty, nor a row of a
different identity. -/
theorem C2_amended_listPending_exact (chat_id : Int) (all_values : List (List String))
    (h : wfRows all_values = true) :
    get_pending_orders_for_user true true chat_id all_values =
      listPendingSpec chat_id all_values := by
  have hall := wfRows_mem h
  have hdrop : ∀ row ∈ all_values.drop 1, 9 ≤ row.length :=
    fun r hr => hall r (List.drop_subset 1 all_values hr)
  by_cases hl : all_values.length ≤ 1
  · have hnil : all_values.drop 1 = [] := by
      cases all_values with
      | nil => rfl
      | cons x xs =>
        simp only [List.length_cons] at hl
        have : xs = [] := List.eq_nil_of_length_eq_zero (by omega)
        simp [this]
    simp [get_pending_orders_for_user, listPendingSpec, hl, hnil]
  · unfold get_pending_orders_for_user listPendingSpec
    rw [if_neg (by simp), if_neg (by simp), if_neg hl]
    exact pendingAux_eq_spec (toString chat_id) (all_values.drop 1) 2 hdrop

/-- Closed instance of `C2_amended_listPending_exact` on the one-pending-row
ledger. -/
theorem C2_amended_witness :
    wfRows exSheetPending = true ∧
      get_pending_orders_for_user true true 7 exSheetPending =
        listPendingSpec 7 exSheetPending :=
  ⟨by decide, C2_amended_listPending_exact 7 exSheetPending (by decide)⟩

/-- C1: starting from a ledger holding only the header row, a sequence
of N successful, non-concurrent appends assigns exactly the order
numbers `#001, #002, …, #N` in that (strictly increasing) order: the
k-th append reads the total row count including the header (which is
then k), zero-pads it to at least 3 digits and stores it. -/
theorem C1_sequential_order_numbers (hdr : List String) (datas : List OrderData) :
    (runAppends datas [hdr]).1 =
      (List.range datas.length).map (fun k => "#" ++ pad3 (k + 1)) := by
  rw [runAppends_numbers]
  apply List.map_congr_left
  intro k _
  simp only [List.length_cons, List.length_nil]
  congr 2
  omega

theorem cancel_order_ok (nowStr : String) (r : Nat) (sheet : List (List String)) :
    cancel_order true true true nowStr r sheet =
      (true, update_cell (update_cell sheet r 9 "STORNIERT") r 10 nowStr) := by
  simp [cancel_order]

theorem update_cell_length (sheet : List (List String)) (r c : Nat) (v : String) :
    (update_cell sheet r c v).length = sheet.length := by
  unfold update_cell
  exact List.length_set sheet _ _

theorem update_cell_getD_self (sheet : List (List String)) (r c : Nat) (v : String)
    (hr : r - 1 < sheet.length) :
    (update_cell sheet r c v).getD (r - 1) [] = (sheet.getD (r - 1) []).set (c - 1) v := by
  unfold update_cell
  exact getD_set_self _ _ sheet (r - 1) hr

theorem update_cell_getD_other (sheet : List (List String)) (r c : Nat) (v : String)
    (i : Nat) (hi : i ≠ r - 1) :
    (update_cell sheet r c v).getD i [] = sheet.getD i [] := by
  unfold update_cell
  exact getD_set_ne _ _ sheet (r - 1) i (Ne.symm hi)

theorem cancel_sheet_facts (nowStr : String) (r : Nat) (sheet : List (List String))
    (hr : r - 1 < sheet.length) :
    (cancel_order true true true nowStr r sheet).1 = true ∧
    ((cancel_order true true true nowStr r sheet).2).length = sheet.length ∧
    ((cancel_order true true true nowStr r sheet).2).getD (r - 1) [] =
      ((sheet.getD (r - 1) []).set 8 "STORNIERT").set 9 nowStr ∧
    ∀ i, i ≠ r - 1 →
      ((cancel_order true true true nowStr r sheet).2).getD i [] = sheet.getD i [] := by
  rw [cancel_order_ok]
  refine ⟨rfl, ?_, ?_, ?_⟩
  · rw [update_cell_length, update_cell_length]
  · rw [update_cell_getD_self _ _ _ _ (by rw [update_cell_length]; exact hr),
      update_cell_getD_self _ _ _ _ hr]
  · intro i hi
    rw [update_cell_getD_other _ _ _ _ _ hi, update_cell_getD_other _ _ _ _ _ hi]

/-- C3: a successful `cancel(rowPosition)` (all round-trips succeed, the
position addresses an existing full-width row) sets that row's
`fulfillment_status` cell (column 9) to `"STORNIERT"` and its
`fulfilled_at` cell (column 10) to the current time, and mutates nothing
else: every other cell of that row and every cell of every other row is
unchanged, and the row count is unchanged. -/
theorem C3_cancel_frame (nowStr : String) (r : Nat) (sheet : List (List String))
    (hr : r - 1 < sheet.length) (hlen : 10 ≤ (sheet.getD (r - 1) []).length) :
    (cancel_order true true true nowStr r sheet).1 = true ∧
    ((cancel_order true true true nowStr r sheet).2).length = sheet.length ∧
    (((cancel_order true true true nowStr r sheet).2).getD (r - 1) []).getD 8 "" =
      "STORNIERT" ∧
    (((cancel_order true true true nowStr r sheet).2).getD (r - 1) []).getD 9 "" =
      nowStr ∧
    (∀ j, j ≠ 8 → j ≠ 9 →
      (((cancel_order true true true nowStr r sheet).2).getD (r - 1) []).getD j "" =
        (sheet.getD (r - 1) []).getD j "") ∧
    ∀ i, i ≠ r - 1 →
      ((cancel_order true true true nowStr r sheet).2).getD i [] = sheet.getD i [] := by
  obtain ⟨h1, h2, h3, h4⟩ := cancel_sheet_facts nowStr r sheet hr
  refine ⟨h1, h2, ?_, ?_, ?_, h4⟩
  · rw [h3, getD_set_ne nowStr "" _ 9 8 (by omega),
      getD_set_self "STORNIERT" "" _ 8 (by omega)]
  · rw [h3, getD_set_self nowStr "" _ 9 (by rw [List.length_set]; omega)]
  · intro j hj8 hj9
    rw [h3, getD_set_ne nowStr "" _ 9 j (Ne.symm hj9),
      getD_set_ne "STORNIERT" "" _ 8 j (Ne.symm hj8)]

/-- Closed instance of `C3_cancel_frame`: cancelling row 2 of the
one-pending-row ledger marks it cancelled, stamps the time, and leaves
its order-number cell untouched. -/
theorem C3_cancel_frame_witness :
    ((2 : Nat) - 1 < exSheetPending.length) ∧
      (10 ≤ (exSheetPending.getD (2 - 1) []).length) ∧
      (((cancel_order true true true "2026-01-06 09:00" 2 exSheetPending).2).getD
          (2 - 1) []).getD 8 "" = "STORNIERT" ∧
      (((cancel_order true true true "2026-01-06 09:00" 2 exSheetPending).2).getD
          (2 - 1) []).getD 9 "" = "2026-01-06 09:00" ∧
      (((cancel_order true true true "2026-01-06 09:00" 2 exSheetPending).2).getD
          (2 - 1) []).getD 0 "" = (exSheetPending.getD (2 - 1) []).getD 0 "" :=
  ⟨by decide, by decide,
    (C3_cancel_frame "2026-01-06 09:00" 2 exSheetPending (by decide) (by decide)).2.2.1,
    (C3_cancel_frame "2026-01-06 09:00" 2 exSheetPending (by decide) (by decide)).2.2.2.1,
    (C3_cancel_frame "2026-01-06 09:00" 2 exSheetPending (by decide)
      (by decide)).2.2.2.2.1 0 (by decide) (by decide)⟩

/-- C4: once `cancel(rowPosition)` has succeeded on a row (existing, at
least 9 cells wide) and no later mutation touches the
sheet, `listPending(identity)` never contains the request at that row
position, for any identity: the cancelled row's status is `"STORNIERT"`,
which is non-blank, so the pending filter rejects it. -/
theorem C4_cancelled_row_never_pending (nowStr : String) (chat_id : Int) (r : Nat)
    (sheet : List (List String)) (hr : r - 1 < sheet.length)
    (h9 : 9 ≤ (sheet.getD (r - 1) []).length) :
    noRowAt r (get_pending_orders_for_user true true chat_id
      (cancel_order true true true nowStr r sheet).2) = true := by
  obtain ⟨-, hlen, hrow, -⟩ := cancel_sheet_facts nowStr r sheet hr
  unfold noRowAt
  rw [List.all_eq_true]
  intro p hp
  show (p.row != r) = true
  unfold get_pending_orders_for_user at hp
  rw [if_neg (by simp), if_neg (by simp)] at hp
  by_cases hl : (cancel_order true true true nowStr r sheet).2.length ≤ 1
  · rw [if_pos hl] at hp
    simp at hp
  · rw [if_neg hl] at hp
    obtain ⟨j, hj, hrowj, hlj, h3j, h8j⟩ :=
      mem_pendingAux (toString chat_id) ((cancel_order true true true nowStr r sheet).2.drop 1)
        2 p hp
    simp only [bne_iff_ne, ne_eq]
    intro heq
    have hj' : 1 + j = r - 1 := by omega
    rw [getD_drop, hj', hrow] at h8j
    rw [getD_set_ne nowStr "" _ 9 8 (by omega),
      getD_set_self "STORNIERT" "" _ 8 (by omega)] at h8j
    exact absurd h8j (by decide)

/-- Closed instance of `C4_cancelled_row_never_pending` on the
one-pending-row ledger: after cancelling row 2, `listPending(7)` no
longer contains a request at row position 2. -/
theorem C4_witness :
    ((2 : Nat) - 1 < exSheetPending.length) ∧
      (9 ≤ (exSheetPending.getD (2 - 1) []).length) ∧
      noRowAt 2 (get_pending_orders_for_user true true 7
        (cancel_order true true true "2026-01-06 09:00" 2 exSheetPending).2) = true :=
  ⟨by decide, by decide,
    C4_cancelled_row_never_pending "2026-01-06 09:00" 7 2 exSheetPending (by decide)
      (by decide)⟩

theorem drop_one_nil {l : List (List String)} (hl : l.length ≤ 1) : l.drop 1 = [] := by
  cases l with
  | nil => rfl
  | cons x xs =>
    simp only [List.length_cons] at hl
    have : xs = [] := List.eq_nil_of_length_eq_zero (by omega)
    simp [this]

theorem searchAux_eq_spec (term : String) :
    ∀ (rows : List (List String)) (i : Nat), (∀ row ∈ rows, 8 ≤ row.length) →
      searchAux term i rows =
        ((rows.enumFrom i).filter (fun p => rowMatches term p.2)).map
          (fun p => mkSearchResult p.1 p.2) := by
  intro rows
  induction rows with
  | nil => intro i _; rfl
  | cons row rest ih =>
    intro i h
    have h8 : 8 ≤ row.length := h row (by simp)
    have hrest : ∀ r ∈ rest, 8 ≤ r.length := fun r hr => h r (by simp [hr])
    show (if decide (8 ≤ row.length) && rowMatches term row then
        mkSearchResult i row :: searchAux term (i + 1) rest
      else searchAux term (i + 1) rest) = _
    have htest : (decide (8 ≤ row.length) && rowMatches term row) = rowMatches term row := by
      simp [h8]
    rw [htest, List.enumFrom, List.filter_cons]
    cases hc : rowMatches term row with
    | true => simp [ih (i + 1) hrest]
    | false => simp [ih (i + 1) hrest]

/-- C5: on every ledger whose rows are at least 9 cells wide (as read
from the real 10-column sheet), `search(term)` returns exactly the first
at-most-10 data rows, in ledger order, whose article, requester name or
cost-center cell contains the term as a case-insensitive substring, and
the result count never exceeds 10. -/
theorem C5_search_first_ten (search_term : String) (all_values : List (List String))
    (h : wfRows all_values = true) :
    search_orders true true search_term all_values = searchSpec search_term all_values ∧
      (search_orders true true search_term all_values).length ≤ 10 := by
  have hall := wfRows_mem h
  have hdrop : ∀ row ∈ all_values.drop 1, 8 ≤ row.length := by
    intro r hr
    have := hall r (List.drop_subset 1 all_values hr)
    omega
  constructor
  · by_cases hl : all_values.length ≤ 1
    · simp [search_orders, searchSpec, hl, drop_one_nil hl]
    · unfold search_orders searchSpec
      rw [if_neg (by simp), if_neg (by simp), if_neg hl,
        searchAux_eq_spec (pyLower search_term) (all_values.drop 1) 2 hdrop]
  · unfold search_orders
    rw [if_neg (by simp), if_neg (by simp)]
    by_cases hl : all_values.length ≤ 1
    · rw [if_pos hl]
      simp
    · rw [if_neg hl, List.length_take]
      exact Nat.min_le_left _ _

/-- Closed instance of `C5_search_first_ten` on the one-pending-row
ledger. -/
theorem C5_witness :
    wfRows exSheetPending = true ∧
      search_orders true true "toner" exSheetPending = searchSpec "toner" exSheetPending ∧
      (search_orders true true "toner" exSheetPending).length ≤ 10 :=
  ⟨by decide, (C5_search_first_ten "toner" exSheetPending (by decide)).1,
    (C5_search_first_ten "toner" exSheetPending (by decide)).2⟩

theorem rowTick_none (parse : String → Option Nat) (ws : Nat) (row : List String)
    (acc : WeeklySummary) (h9 : 9 ≤ row.length) (hp : parse (row.getD 1 "") = none) :
    rowTick parse ws row acc = acc := by
  unfold rowTick
  rw [if_pos h9, hp]

theorem rowTick_late (parse : String → Option Nat) (ws : Nat) (row : List String)
    (acc : WeeklySummary) (d : Nat) (h9 : 9 ≤ row.length)
    (hp : parse (row.getD 1 "") = some d) (hws : ¬ ws ≤ d) :
    rowTick parse ws row acc = acc := by
  unfold rowTick
  rw [if_pos h9, hp]
  show (if ws ≤ d then _ else acc) = acc
  rw [if_neg hws]

theorem rowTick_counted (parse : String → Option Nat) (ws : Nat) (row : List String)
    (acc : WeeklySummary) (d : Nat) (h9 : 9 ≤ row.length)
    (hp : parse (row.getD 1 "") = some d) (hws : ws ≤ d) :
    rowTick parse ws row acc =
      { total := acc.total + 1
        pending := acc.pending + (if classify (row.getD 8 "") = .pending then 1 else 0)
        ordered := acc.ordered + (if classify (row.getD 8 "") = .ordered then 1 else 0)
        cancelled :=
          acc.cancelled + (if classify (row.getD 8 "") = .cancelled then 1 else 0)
        by_kostenstelle := bump acc.by_kostenstelle (row.getD 7 "") } := by
  unfold rowTick
  rw [if_pos h9, hp]
  show (if ws ≤ d then _ else acc) = _
  rw [if_pos hws]
  cases hcl : classify (row.getD 8 "") <;> simp [hcl]

theorem weeklyLoop_spec (parse : String → Option Nat) (ws : Nat) :
    ∀ (rows : List (List String)) (acc : WeeklySummary),
      (∀ row ∈ rows, 9 ≤ row.length) →
      weeklyLoop parse ws rows acc =
        { total := acc.total + rows.countP (fun row => inWindow parse ws row)
          pending := acc.pending + rows.countP
            (fun row => inWindow parse ws row && decide (classify (row.getD 8 "") = .pending))
          ordered := acc.ordered + rows.countP
            (fun row => inWindow parse ws row && decide (classify (row.getD 8 "") = .ordered))
          cancelled := acc.cancelled + rows.countP
            (fun row => inWindow parse ws row && decide (classify (row.getD 8 "") = .cancelled))
          by_kostenstelle := rows.foldl
            (fun m row => if inWindow parse ws row then bump m (row.getD 7 "") else m)
            acc.by_kostenstelle } := by
  intro rows
  induction rows with
  | nil => intro acc _; simp [weeklyLoop]
  | cons row rest ih =>
    intro acc h
    have h9 : 9 ≤ row.length := h row (by simp)
    have hrest : ∀ r ∈ rest, 9 ≤ r.length := fun r hr => h r (by simp [hr])
    show weeklyLoop parse ws rest (rowTick parse ws row acc) = _
    rw [ih _ hrest]
    cases hparse : parse (row.getD 1 "") with
    | none =>
      have hw : inWindow parse ws row = false := by
        unfold inWindow
        rw [hparse]
      rw [rowTick_none parse ws row acc h9 hparse]
      simp [List.countP_cons, hw]
    | some d =>
      have hwd : inWindow parse ws row = decide (ws ≤ d) := by
        unfold inWindow
        rw [hparse]
      by_cases hws : ws ≤ d
      · have hw : inWindow parse ws row = true := by rw [hwd]; simp [hws]
        rw [rowTick_counted parse ws row acc d h9 hparse hws]
        simp only [List.countP_cons, List.foldl_cons, hw, WeeklySummary.mk.injEq,
          Bool.true_and, if_true]
        refine ⟨by omega, ?_, ?_, ?_, trivial⟩ <;>
          · cases hcl : classify (row.getD 8 "") <;> simp [hcl] <;> omega
      · have hw : inWindow parse ws row = false := by rw [hwd]; simp [hws]
        rw [rowTick_late parse ws row acc d h9 hparse hws]
        simp [List.countP_cons, hw]

/-- C6 counterexample: with `now` on Wednesday noon of the epoch week,
the single data row's timestamp parses to Thursday 00:00 — strictly
after `now`, hence outside the claimed window `[Monday 00:00, now]` —
yet `get_weekly_summary` counts it (`total = 1`, classified pending):
the source only checks `order_date >= week_start` and has no upper bound
at `now`.  This refutes the claim that a row is counted only if its
timestamp falls inside the window up to and including `now`. -/
theorem C6_counterexample :
    get_weekly_summary true true exParse exNow exSheetThursday =
        some ⟨1, 1, 0, 0, [("Lager", 1)]⟩ ∧
      exParse (exRowThursday.getD 1 "") = some (3 * microsPerDay) ∧
      exNow < 3 * microsPerDay := by
  refine ⟨?_, by decide, by decide⟩
  decide

/-- C6 (amended): on every ledger whose rows are at least 9 cells wide,
`weeklyAggregate(now)` counts a row exactly when its `created_at` parses
and lies **at or after** `week_start now` (`now` with hours, minutes and
seconds zeroed — microseconds retained — minus the weekday): there is no
upper bound at `now`, so future timestamps are also counted; rows whose
timestamp does not parse are silently excluded without error; counted
rows are classified pending / cancelled / ordered by `classify` and
tallied per cost center, as `weeklySpec` states. -/
theorem C6_amended_weekly_window (parse : String → Option Nat) (now : Nat)
    (all_values : List (List String)) (h : wfRows all_values = true) :
    get_weekly_summary true true parse now all_values =
      some (weeklySpec parse now all_values) := by
  have hdrop : ∀ row ∈ all_values.drop 1, 9 ≤ row.length :=
    fun r hr => wfRows_mem h r (List.drop_subset 1 all_values hr)
  unfold get_weekly_summary weeklySpec
  rw [if_neg (by simp), if_neg (by simp)]
  by_cases hl : all_values.length ≤ 1
  · rw [if_pos hl]
    simp [drop_one_nil hl]
  · rw [if_neg hl, weeklyLoop_spec parse (week_start now) (all_values.drop 1) _ hdrop]
    simp

/-- Closed instance of `C6_amended_weekly_window` on the one-pending-row
ledger. -/
theorem C6_amended_witness :
    wfRows exSheetPending = true ∧
      get_weekly_summary true true exParse exNow exSheetPending =
        some (weeklySpec exParse exNow exSheetPending) :=
  ⟨by decide, C6_amended_weekly_window exParse exNow exSheetPending (by decide)⟩

/-- C7 counterexample: an identity whose scratch state caches one
pending order aborts the cancellation flow (`cancel_abort`); the source
returns `END` without calling `context.user_data.clear()`, so the
scratch state is unchanged and non-empty.  This refutes the claim that
every terminal transition — in particular the abort of the cancellation
flow — leaves the per-identity scratch state empty. -/
theorem C7_counterexample :
    (stornieren_callback .cancel_abort true true true "t" exUserData []).2.1 =
        exUserData ∧
      exUserData ≠ ({} : UserData) := by
  exact ⟨rfl, by decide⟩

/-- C7 (amended): submit, restart and abort of the order-creation flow,
and the selection path of the cancellation flow, all leave the
per-identity scratch state empty once the transition completes
(whatever the store outcome); aborting the cancellation flow, however,
leaves the scratch state exactly as it was (the cached pending list
survives). -/
theorem C7_amended_scratch_state (oc ic ro ao c u1 u2 : Bool)
    (nowStr name nowS : String) (chat_id : Int) (r : Nat) (ud : UserData)
    (sheet : List (List String)) :
    (confirmation_callback .confirm_yes oc ic ro ao nowStr name chat_id ud sheet).2.1 =
        ({} : UserData) ∧
      (confirmation_callback .confirm_restart oc ic ro ao nowStr name chat_id ud
          sheet).2.1 = ({} : UserData) ∧
      (confirmation_callback .confirm_cancel oc ic ro ao nowStr name chat_id ud
          sheet).2.1 = ({} : UserData) ∧
      (stornieren_callback (.cancel_select r) c u1 u2 nowS ud sheet).2.1 =
        ({} : UserData) ∧
      (stornieren_callback .cancel_abort c u1 u2 nowS ud sheet).2.1 = ud := by
  refine ⟨rfl, rfl, rfl, ?_, rfl⟩
  cases hfind : ud.pending_orders.find? (fun o => o.row == r) with
  | none => simp [stornieren_callback, hfind, UserData.clear]
  | some o => simp [stornieren_callback, hfind, UserData.clear]

/-- C8: every ledger operation contains its own store failures: when its
store connection fails, or the read/write round-trip it performs fails
(raises), the operation returns its neutral outcome — `(False, "")` for
append, `[]` for pending-lookup and search, `False` for cancel (whatever
partial write the raising round-trip left behind), and the empty dict
(`none`) for the weekly aggregate — and, being a total function of its
inputs in this model, never propagates an exception to its caller. -/
theorem C8_store_failures_contained (ic ro ao u1 u2 : Bool)
    (sheet : List (List String)) (data : OrderData) (chat_id : Int)
    (term nowStr : String) (parse : String → Option Nat) (now : Nat) (r : Nat) :
    save_to_sheet false ic ro ao sheet data = (false, "", sheet) ∧
    save_to_sheet true ic ro false sheet data = (false, "", sheet) ∧
    get_pending_orders_for_user false ro chat_id sheet = [] ∧
    get_pending_orders_for_user true false chat_id sheet = [] ∧
    cancel_order false u1 u2 nowStr r sheet = (false, sheet) ∧
    cancel_order true false u2 nowStr r sheet = (false, sheet) ∧
    (cancel_order true true false nowStr r sheet).1 = false ∧
    search_orders false ro term sheet = [] ∧
    search_orders true false term sheet = [] ∧
    get_weekly_summary false ro parse now sheet = none ∧
    get_weekly_summary true false parse now sheet = none :=
  ⟨rfl, rfl, rfl, rfl, rfl, rfl, rfl, rfl, rfl, rfl, rfl⟩

/-- C9: when the append itself succeeds but the internal order-number
derivation fails — its own store connection yields no handle, or the
row-count read raises — `save_to_sheet` still reports success and writes
the row durably, storing the literal placeholder `"#001"` (no handle)
respectively `"#???"` (read failure) as the order number.  A successful
append therefore does not guarantee a unique, well-formed `#NNN`
identifier. -/
theorem C9_success_with_placeholder (ro : Bool) (sheet : List (List String))
    (data : OrderData) :
    save_to_sheet true false ro true sheet data =
        (true, "#001", sheet ++ [orderRow "#001" data]) ∧
      save_to_sheet true true false true sheet data =
        (true, "#???", sheet ++ [orderRow "#???" data]) :=
  ⟨rfl, rfl⟩

theorem pendingAux_complete (chat : String) :
    ∀ (rows : List (List String)) (j i : Nat), j < rows.length →
      pendingRowTest chat (rows.getD j []) = true →
      hasRowAt (i + j) (pendingAux chat i rows) = true := by
  intro rows
  induction rows with
  | nil => intro j i hj _; simp at hj
  | cons row rest ih =>
    intro j i hj htest
    cases j with
    | zero =>
      have hrow : (row :: rest).getD 0 [] = row := rfl
      rw [hrow] at htest
      show hasRowAt (i + 0)
        (if pendingRowTest chat row then mkPendingOrder i row :: pendingAux chat (i + 1) rest
         else pendingAux chat (i + 1) rest) = true
      rw [if_pos htest]
      unfold hasRowAt
      simp [mkPendingOrder]
    | succ j' =>
      have hj' : j' < rest.length := by simpa using hj
      have htest' : pendingRowTest chat (rest.getD j' []) = true := htest
      have hrec := ih j' (i + 1) hj' htest'
      show hasRowAt (i + (j' + 1))
        (if pendingRowTest chat row then mkPendingOrder i row :: pendingAux chat (i + 1) rest
         else pendingAux chat (i + 1) rest) = true
      have heq : i + (j' + 1) = (i + 1) + j' := by omega
      rw [heq]
      by_cases hc : pendingRowTest chat row = true
      · rw [if_pos hc]
        unfold hasRowAt at hrec ⊢
        simp only [List.any_cons, hrec, Bool.or_true]
      · rw [if_neg hc]
        exact hrec

/-- C10: a data row whose `fulfillment_status` cell is blank after
stripping whitespace (in particular, consists only of whitespace) is
treated exactly like an empty status: `listPending` returns it for its
owner (a row position annotation `r` appears in the result), and the
weekly aggregation classifies it as pending. -/
theorem C10_whitespace_status_pending (chat_id : Int) (r : Nat)
    (all_values : List (List String)) (h2 : 2 ≤ r) (hr : r - 1 < all_values.length)
    (h9 : 9 ≤ (all_values.getD (r - 1) []).length)
    (hid : (all_values.getD (r - 1) []).getD 3 "" = toString chat_id)
    (hws : pyStrip ((all_values.getD (r - 1) []).getD 8 "") = "") :
    hasRowAt r (get_pending_orders_for_user true true chat_id all_values) = true ∧
      classify ((all_values.getD (r - 1) []).getD 8 "") = Category.pending := by
  constructor
  · unfold get_pending_orders_for_user
    rw [if_neg (by simp), if_neg (by simp),
      if_neg (by omega : ¬ all_values.length ≤ 1)]
    have hj : r - 2 < (all_values.drop 1).length := by
      rw [List.length_drop]
      omega
    have hgd : (all_values.drop 1).getD (r - 2) [] = all_values.getD (r - 1) [] := by
      rw [getD_drop]
      congr 1
      omega
    have htest : pendingRowTest (toString chat_id)
        ((all_values.drop 1).getD (r - 2) []) = true := by
      rw [hgd]
      simp only [pendingRowTest, Bool.and_eq_true, decide_eq_true_eq, beq_iff_eq]
      exact ⟨⟨h9, hid.symm⟩, hws⟩
    have hmem := pendingAux_complete (toString chat_id) (all_values.drop 1) (r - 2) 2 hj htest
    have heq : 2 + (r - 2) = r := by omega
    rwa [heq] at hmem
  · unfold classify
    rw [hws]
    rfl

/-- Closed instance of `C10_whitespace_status_pending` on the ledger
whose single data row has the single-space status. -/
theorem C10_witness :
    ((2 : Nat) ≤ 2) ∧ ((2 : Nat) - 1 < exSheetSpace.length) ∧
      (9 ≤ (exSheetSpace.getD (2 - 1) []).length) ∧
      ((exSheetSpace.getD (2 - 1) []).getD 3 "" = toString (7 : Int)) ∧
      (pyStrip ((exSheetSpace.getD (2 - 1) []).getD 8 "") = "") ∧
      hasRowAt 2 (get_pending_orders_for_user true true 7 exSheetSpace) = true ∧
      classify ((exSheetSpace.getD (2 - 1) []).getD 8 "") = Category.pending :=
  ⟨by decide, by decide, by decide, by decide, by decide,
    (C10_whitespace_status_pending 7 2 exSheetSpace (by decide) (by decide) (by decide)
      (by decide) (by decide)).1,
    (C10_whitespace_status_pending 7 2 exSheetSpace (by decide) (by decide) (by decide)
      (by decide) (by decide)).2⟩

end Bot
